import Mathlib

/-!
Verification of the SMA-crossover backtest pipeline (`main.py`).

The development shallowly embeds the program: a data frame is a list of
rows, pandas float columns become lists of `Option ℚ` (a `none` is a
missing value / NaN), balances and prices are exact rationals, and the
trading loop of `simulate_trading` becomes explicit state passing.
Python float power (used by `calculate_cagr`) is modelled by its exact
classification: an integral exponent yields an exact rational, a
positive base with a fractional exponent yields a real value (kept
symbolically as base and exponent), a negative base with a fractional
exponent yields a complex value (Python returns it silently), and the
zero-division cases raise.
-/

namespace HillRoute

/-! ## Data model: rows of the OHLCV frame -/

/-- One row of the OHLCV data frame as the quality gate sees it:
the six columns built by `fetch_ohlcv`; a `none` field is a missing
value (NaT / NaN). -/
structure QRow where
  timestamp : Option ℕ
  «open» : Option ℚ
  high : Option ℚ
  low : Option ℚ
  close : Option ℚ
  volume : Option ℚ
deriving DecidableEq

/-! ## Quality gate (`verify_data_quality`) -/

/-- Per-column missing-value counts, the model of
`df.isnull().sum().to_dict()`. -/
structure MissingCounts where
  m_timestamp : ℕ
  m_open : ℕ
  m_high : ℕ
  m_low : ℕ
  m_close : ℕ
  m_volume : ℕ
deriving DecidableEq

/-- The metrics dictionary returned by `verify_data_quality`. -/
structure QualityMetrics where
  total_rows : ℕ
  missing_values : MissingCounts
  duplicate_timestamps : ℕ
  issues : List String
deriving DecidableEq

/-- `df.isnull().values.any()`: some field of some row is missing. -/
def hasMissing (df : List QRow) : Bool :=
  df.any (fun r =>
    r.timestamp.isNone || r.«open».isNone || r.high.isNone ||
      r.low.isNone || r.close.isNone || r.volume.isNone)

/-- Number of elements of the list that already occurred earlier,
with `seen` the elements encountered so far; this is the model of
`Series.duplicated()` (mark every occurrence after the first) summed. -/
def dupAux (seen : List (Option ℕ)) : List (Option ℕ) → ℕ
  | [] => 0
  | t :: rest => (if t ∈ seen then 1 else 0) + dupAux (t :: seen) rest

/-- `df['timestamp'].duplicated().sum()`. -/
def duplicatedCount (df : List QRow) : ℕ :=
  dupAux [] (df.map (fun r => r.timestamp))

/-- `value <= 0` in pandas: a missing value (NaN) compares `False`. -/
def leZero : Option ℚ → Bool
  | some q => decide (q ≤ 0)
  | none => false

/-- `(df[numeric] <= 0).any().any()`: some numeric field of some row is
non-positive. -/
def hasNonPositive (df : List QRow) : Bool :=
  df.any (fun r =>
    leZero r.«open» || leZero r.high || leZero r.low ||
      leZero r.close || leZero r.volume)

/-- Count of missing entries in a column. -/
def countNone {α : Type} (l : List (Option α)) : ℕ :=
  (l.filter (fun x => x.isNone)).length

/-- `verify_data_quality(df)`: the three independent checks, each always
performed, and the metrics dictionary. -/
def verify_data_quality (df : List QRow) : QualityMetrics :=
  { total_rows := df.length
    missing_values :=
      { m_timestamp := countNone (df.map (fun r => r.timestamp))
        m_open := countNone (df.map (fun r => r.«open»))
        m_high := countNone (df.map (fun r => r.high))
        m_low := countNone (df.map (fun r => r.low))
        m_close := countNone (df.map (fun r => r.close))
        m_volume := countNone (df.map (fun r => r.volume)) }
    duplicate_timestamps := duplicatedCount df
    issues :=
      (if hasMissing df then ["Data contains missing values."] else []) ++
      (if 0 < duplicatedCount df then ["Data contains duplicate timestamps."] else []) ++
      (if hasNonPositive df then ["Data contains non-positive values in numeric columns."] else []) }

/-! ## Indicator engine (`calculate_sma`) -/

/-- One pass of `Series.rolling(window=w).mean()`: walk the column
keeping the values seen so far in `buf`; at each element the window is
the last `w` entries of the extended buffer, and the mean is defined
only when `w` positions have elapsed and none of them is missing
(pandas: `min_periods` defaults to the window size, NaN observations do
not count). -/
def rollingAux (w : ℕ) (buf : List (Option ℚ)) : List (Option ℚ) → List (Option ℚ)
  | [] => []
  | x :: rest =>
      (if w ≤ (buf ++ [x]).length
            ∧ ((buf ++ [x]).drop ((buf ++ [x]).length - w)).all (fun v => v.isSome) then
         some ((((buf ++ [x]).drop ((buf ++ [x]).length - w)).filterMap id).sum / (w : ℚ))
       else none) :: rollingAux w (buf ++ [x]) rest

/-- `calculate_sma(df, column, window)`:
`df[column].rolling(window=window).mean()` on the given column. -/
def calculate_sma (col : List (Option ℚ)) (window : ℕ) : List (Option ℚ) :=
  rollingAux window [] col

/-! ## Signal generator (`generate_signals`) -/

/-- Pandas `>` on two column entries: comparisons against a missing
value (NaN) are `False`. -/
def optGt : Option ℚ → Option ℚ → Bool
  | some x, some y => decide (y < x)
  | _, _ => false

/-- The per-row signal written by `generate_signals`: the column starts
as 0, rows with `SMA_10 > SMA_20` are set to 1, rows with
`SMA_20 > SMA_10` to -1. -/
def sigOf (a b : Option ℚ) : ℤ :=
  if optGt a b then 1 else if optGt b a then -1 else 0

/-- The signal column produced by `generate_signals` from the two SMA
columns; row `i` depends only on the two SMA entries at `i`. -/
def generate_signals (sma10 sma20 : List (Option ℚ)) : List ℤ :=
  List.zipWith sigOf sma10 sma20

/-! ## Backtest engine (`simulate_trading`) -/

/-- One bar of the series as the trading loop reads it: the timestamp,
the close and the signal column entry. -/
structure Row where
  timestamp : ℕ
  close : ℚ
  signal : ℤ
deriving DecidableEq

/-- The mutable loop state of `simulate_trading`: `balance`, `position`
(0 none, 1 long, -1 short) and `entry_price`. -/
structure SimState where
  balance : ℚ
  position : ℤ
  entry_price : ℚ
deriving DecidableEq

/-- The entry/flip branch of the loop body: buy when `signal == 1 and
position <= 0`, else sell when `signal == -1 and position >= 0`; only
`position` and `entry_price` are written. -/
def stepEntry (st : SimState) (r : Row) : SimState :=
  if r.signal = 1 ∧ st.position ≤ 0 then
    { st with position := 1, entry_price := r.close }
  else if r.signal = -1 ∧ st.position ≥ 0 then
    { st with position := -1, entry_price := r.close }
  else st

/-- The close-out branch: when the bar's timestamp equals the last
row's timestamp (`is_last_day`) and a position is open, realize P&L
into the balance and reset the position. -/
def stepClose (lastTs : ℕ) (st : SimState) (r : Row) : SimState :=
  if r.timestamp = lastTs ∧ st.position ≠ 0 then
    { balance :=
        if st.position = 1 then st.balance + (r.close - st.entry_price)
        else if st.position = -1 then st.balance + (st.entry_price - r.close)
        else st.balance
      position := 0
      entry_price := st.entry_price }
  else st

/-- One full loop iteration on a bar: entry/flip, then final-bar
close-out. -/
def stepBar (lastTs : ℕ) (st : SimState) (r : Row) : SimState :=
  stepClose lastTs (stepEntry st r) r

/-- The `for` loop of `simulate_trading`: before each bar the balance
floor is checked (`balance < 1000` breaks out of the loop), then the
bar is processed. -/
def runStates (lastTs : ℕ) (st : SimState) : List Row → SimState
  | [] => st
  | r :: rest =>
      if st.balance < 1000 then st else runStates lastTs (stepBar lastTs st r) rest

/-- `simulate_trading(df, initial_balance)`: run the loop with the last
row's timestamp as the close-out marker and return the final balance;
an empty frame never enters the loop body. -/
def simulate_trading (rows : List Row) (initial_balance : ℚ) : ℚ :=
  match rows.getLast? with
  | none => initial_balance
  | some last => (runStates last.timestamp ⟨initial_balance, 0, 0⟩ rows).balance

/-- The amount the final-bar close-out adds to the balance for a given
pre-close state and closing bar. -/
def settle (st : SimState) (r : Row) : ℚ :=
  if st.position = 1 then r.close - st.entry_price
  else if st.position = -1 then st.entry_price - r.close
  else 0

/-! ## Performance calculator (`calculate_pnl`, `calculate_cagr`) -/

/-- `calculate_pnl(initial_balance, final_balance)`. -/
def calculate_pnl (initial_balance final_balance : ℚ) : ℚ :=
  final_balance - initial_balance

/-- The exception a Python arithmetic step can raise here. -/
inductive PyError where
  | zeroDivision : PyError
deriving DecidableEq

/-- Classification of the value `((final/initial) ** (1/years)) - 1`
under Python float semantics: `real q` is an exact rational outcome,
`realPow b e` is the real number `b ^ e - 1` for a positive base `b`
and fractional exponent `e`, and `complexPow b e` is the complex number
Python silently returns for a negative base and fractional exponent. -/
inductive CagrResult where
  | real (q : ℚ)
  | realPow (base expo : ℚ)
  | complexPow (base expo : ℚ)
deriving DecidableEq

/-- `calculate_cagr(initial_balance, final_balance, years)`:
`((final_balance / initial_balance) ** (1 / years)) - 1` with Python
float semantics. Division by a zero `initial_balance` or zero `years`
raises `ZeroDivisionError`; `x ** y` with integral `y` is exact real
arithmetic (raising for `0 ** negative`), with fractional `y` it is a
real power for base `> 0`, `0.0` for base `= 0` and positive exponent,
and a silently returned complex number for a negative base. No input
validation of any kind is performed by the function. -/
def calculate_cagr (initial_balance final_balance years : ℚ) : Except PyError CagrResult :=
  if initial_balance = 0 then Except.error PyError.zeroDivision
  else if years = 0 then Except.error PyError.zeroDivision
  else
    let base := final_balance / initial_balance
    let e := 1 / years
    if e.den = 1 then
      if base = 0 ∧ e < 0 then Except.error PyError.zeroDivision
      else Except.ok (CagrResult.real (base ^ e.num - 1))
    else if base < 0 then Except.ok (CagrResult.complexPow base e)
    else if base = 0 then
      if e < 0 then Except.error PyError.zeroDivision
      else Except.ok (CagrResult.real (0 - 1))
    else Except.ok (CagrResult.realPow base e)

/-! ## The `main` pipeline with object identity (heap model)

`main` creates a single DataFrame object, the quality gate reads it,
and the later stages write columns into that same object:
`ohlcv_data['SMA_10'] = ...` and `ohlcv_data['SMA_20'] = ...` are
in-place column assignments, and `generate_signals` assigns
`df['signal']` on its argument and returns the very same object. The
heap maps addresses to DataFrame values so that "same object" is
expressible. -/

/-- A DataFrame object value: the fetched rows plus the derived
columns, each `none` until the corresponding assignment has run. -/
structure DF where
  rows : List QRow
  sma10 : Option (List (Option ℚ))
  sma20 : Option (List (Option ℚ))
  signal : Option (List ℤ)
deriving DecidableEq, Inhabited

/-- Object addresses. -/
abbrev Addr := ℕ

/-- The heap of DataFrame objects. -/
abbrev Heap := List (Addr × DF)

/-- Read the object at an address. -/
def hLookup (h : Heap) (a : Addr) : Option DF :=
  match h.find? (fun p => p.1 == a) with
  | some p => some p.2
  | none => none

/-- Mutate the object at an address in place. -/
def hUpdate (h : Heap) (a : Addr) (f : DF → DF) : Heap :=
  h.map (fun p => if p.1 = a then (p.1, f p.2) else p)

/-- `ohlcv_data['SMA_10'] = calculate_sma(ohlcv_data, 'close', 10)` as
a transformation of the object's value. -/
def applySMA10 (df : DF) : DF :=
  { df with sma10 := some (calculate_sma (df.rows.map (fun r => r.close)) 10) }

/-- `ohlcv_data['SMA_20'] = calculate_sma(ohlcv_data, 'close', 20)`. -/
def applySMA20 (df : DF) : DF :=
  { df with sma20 := some (calculate_sma (df.rows.map (fun r => r.close)) 20) }

/-- The effect of `generate_signals` on the object's value: the signal
column is written from the two SMA columns (both present at this point
of `main`). -/
def applySignals (df : DF) : DF :=
  { df with signal := some (generate_signals (df.sma10.getD []) (df.sma20.getD [])) }

/-- `generate_signals(df)` at the object level: it mutates the frame in
place and returns the same reference. -/
def generate_signals_obj (h : Heap) (a : Addr) : Heap × Addr :=
  (hUpdate h a applySignals, a)

/-- What a run of `main` records about the quality gate and the frame:
the address the gate received, the value of that object when the gate
read it, the report, and the address/heap after signal generation. -/
structure PipelineTrace where
  gateAddr : Addr
  gateView : DF
  report : QualityMetrics
  finalAddr : Addr
  finalHeap : Heap
deriving DecidableEq

/-- The data-frame part of `main`: allocate the fetched frame, run the
quality gate on it, assign the two SMA columns in place, then run
`generate_signals` (in place, returning the same reference). -/
def mainPipeline (raw : List QRow) : PipelineTrace :=
  let a0 : Addr := 0
  let h0 : Heap := [(a0, { rows := raw, sma10 := none, sma20 := none, signal := none })]
  let gateView := (hLookup h0 a0).getD default
  let report := verify_data_quality gateView.rows
  let h1 := hUpdate h0 a0 applySMA10
  let h2 := hUpdate h1 a0 applySMA20
  let h3a := generate_signals_obj h2 a0
  { gateAddr := a0, gateView := gateView, report := report,
    finalAddr := h3a.2, finalHeap := h3a.1 }

/-! ## Backtest engine lemmas -/

theorem stepEntry_balance (st : SimState) (r : Row) : (stepEntry st r).balance = st.balance := by
  unfold stepEntry
  split_ifs <;> rfl

theorem foldl_stepEntry_balance (rs : List Row) (st : SimState) :
    (rs.foldl stepEntry st).balance = st.balance := by
  induction rs generalizing st with
  | nil => rfl
  | cons r rest ih =>
      rw [List.foldl_cons, ih (stepEntry st r), stepEntry_balance]

theorem stepClose_of_ne (lastTs : ℕ) (st : SimState) (r : Row) (h : r.timestamp ≠ lastTs) :
    stepClose lastTs st r = st := by
  unfold stepClose
  rw [if_neg]
  simp [h]

theorem stepBar_balance_of_ne (lastTs : ℕ) (st : SimState) (r : Row) (h : r.timestamp ≠ lastTs) :
    (stepBar lastTs st r).balance = st.balance := by
  rw [stepBar, stepClose_of_ne _ _ _ h, stepEntry_balance]

theorem runStates_low (lastTs : ℕ) (st : SimState) (l : List Row) (h : st.balance < 1000) :
    runStates lastTs st l = st := by
  cases l <;> simp [runStates, h]

theorem runStates_balance_of_ne (lastTs : ℕ) (l : List Row) :
    ∀ st : SimState, (∀ r ∈ l, r.timestamp ≠ lastTs) →
      (runStates lastTs st l).balance = st.balance := by
  induction l with
  | nil => intro st _; rfl
  | cons r rest ih =>
      intro st hts
      by_cases hb : st.balance < 1000
      · rw [runStates_low _ _ _ hb]
      · have hr : r.timestamp ≠ lastTs := hts r (by simp)
        calc (runStates lastTs st (r :: rest)).balance
            = (runStates lastTs (stepBar lastTs st r) rest).balance := by
              simp [runStates, hb]
          _ = (stepBar lastTs st r).balance := ih _ (fun x hx => hts x (by simp [hx]))
          _ = st.balance := stepBar_balance_of_ne _ _ _ hr

theorem runStates_skip (lastTs : ℕ) (rs tail : List Row) :
    ∀ st : SimState, (∀ r ∈ rs, r.timestamp ≠ lastTs) → 1000 ≤ st.balance →
      runStates lastTs st (rs ++ tail) = runStates lastTs (rs.foldl stepEntry st) tail := by
  induction rs with
  | nil => intro st _ _; rfl
  | cons r rest ih =>
      intro st hts hbal
      have hr : r.timestamp ≠ lastTs := hts r (by simp)
      have hnl : ¬ st.balance < 1000 := not_lt.mpr hbal
      have hbar : stepBar lastTs st r = stepEntry st r := by
        rw [stepBar, stepClose_of_ne _ _ _ hr]
      calc runStates lastTs st (r :: rest ++ tail)
          = runStates lastTs (stepBar lastTs st r) (rest ++ tail) := by
            simp [runStates, hnl]
        _ = runStates lastTs ((r :: rest).foldl stepEntry st) tail := by
            rw [hbar, List.foldl_cons]
            exact ih (stepEntry st r) (fun x hx => hts x (by simp [hx]))
              (by rw [stepEntry_balance]; exact hbal)

theorem runStates_last (lastTs : ℕ) (rs : List Row) (last : Row) (st : SimState)
    (hts : ∀ r ∈ rs, r.timestamp ≠ lastTs) (hlast : last.timestamp = lastTs)
    (hbal : 1000 ≤ st.balance) :
    (runStates lastTs st (rs ++ [last])).balance
        = st.balance + settle ((rs ++ [last]).foldl stepEntry st) last
      ∧ (runStates lastTs st (rs ++ [last])).position = 0 := by
  rw [runStates_skip lastTs rs [last] st hts hbal]
  have hb1 : (rs.foldl stepEntry st).balance = st.balance := foldl_stepEntry_balance rs st
  have hnl : ¬ (rs.foldl stepEntry st).balance < 1000 := by
    rw [hb1]; exact not_lt.mpr hbal
  have hrun : runStates lastTs (rs.foldl stepEntry st) [last]
      = stepBar lastTs (rs.foldl stepEntry st) last := by
    simp [runStates, hnl]
  have hfold : (rs ++ [last]).foldl stepEntry st = stepEntry (rs.foldl stepEntry st) last := by
    rw [List.foldl_append, List.foldl_cons, List.foldl_nil]
  rw [hrun, hfold, stepBar]
  have hb2 : (stepEntry (rs.foldl stepEntry st) last).balance = st.balance := by
    rw [stepEntry_balance, hb1]
  set st2 := stepEntry (rs.foldl stepEntry st) last with hst2
  by_cases hp : st2.position = 0
  · have hcl : stepClose lastTs st2 last = st2 := by
      unfold stepClose
      rw [if_neg]
      simp [hp]
    rw [hcl, hb2]
    refine ⟨?_, hp⟩
    simp [settle, hp]
  · have hcl : stepClose lastTs st2 last
        = { balance :=
              if st2.position = 1 then st2.balance + (last.close - st2.entry_price)
              else if st2.position = -1 then st2.balance + (st2.entry_price - last.close)
              else st2.balance
            position := 0
            entry_price := st2.entry_price } := by
      unfold stepClose
      rw [if_pos ⟨hlast, hp⟩]
    rw [hcl]
    refine ⟨?_, rfl⟩
    simp only [settle, hb2]
    split_ifs <;> ring

theorem simulate_trading_concat (rs : List Row) (last : Row) (init : ℚ) :
    simulate_trading (rs ++ [last]) init
      = (runStates last.timestamp ⟨init, 0, 0⟩ (rs ++ [last])).balance := by
  simp [simulate_trading]

/-- C1: with strictly increasing timestamps and initial balance at
least 1000, the run realizes P&L only at the final bar: the result is
the initial balance plus, for a Long side on the final bar, final close
minus entry price, for Short the entry price minus the final close, and
the side ends reset to Flat; in particular closes 100, 110, 90 with
signals Buy, Flat, Flat return the initial balance minus 10. -/
theorem simulate_final_bar_settlement (rs : List Row) (last : Row) (init : ℚ)
    (hmono : List.Pairwise (fun a b => a.timestamp < b.timestamp) (rs ++ [last]))
    (hinit : 1000 ≤ init) :
    (simulate_trading (rs ++ [last]) init
        = init + settle ((rs ++ [last]).foldl stepEntry ⟨init, 0, 0⟩) last
      ∧ (runStates last.timestamp ⟨init, 0, 0⟩ (rs ++ [last])).position = 0)
    ∧ simulate_trading [⟨0, 100, 1⟩, ⟨1, 110, 0⟩, ⟨2, 90, 0⟩] init = init - 10 := by
  have hts : ∀ r ∈ rs, r.timestamp ≠ last.timestamp := by
    rw [List.pairwise_append] at hmono
    intro r hr
    exact ne_of_lt (hmono.2.2 r hr last (by simp))
  have h := runStates_last last.timestamp rs last ⟨init, 0, 0⟩ hts rfl hinit
  have hni : ¬ (init < 1000) := not_lt.mpr hinit
  refine ⟨⟨?_, h.2⟩, ?_⟩
  · rw [simulate_trading_concat]
    exact h.1
  · norm_num [simulate_trading, runStates, stepBar, stepEntry, stepClose, hni]
    ring

/-- C2: entry and flip transitions never touch the balance; a bar whose
timestamp differs from the last row's timestamp leaves the balance
unchanged; hence over a strictly increasing series the balance after
any prefix that stops before the final bar is still the initial
balance. -/
theorem balance_constant_before_close :
    (∀ (st : SimState) (r : Row), (stepEntry st r).balance = st.balance)
    ∧ (∀ (lastTs : ℕ) (st : SimState) (r : Row), r.timestamp ≠ lastTs →
        (stepBar lastTs st r).balance = st.balance)
    ∧ (∀ (rs : List Row) (last : Row) (init : ℚ) (n : ℕ),
        List.Pairwise (fun a b => a.timestamp < b.timestamp) (rs ++ [last]) →
        n ≤ rs.length →
        (runStates last.timestamp ⟨init, 0, 0⟩ ((rs ++ [last]).take n)).balance = init) := by
  refine ⟨stepEntry_balance, stepBar_balance_of_ne, ?_⟩
  intro rs last init n hmono hn
  have hts : ∀ r ∈ rs, r.timestamp ≠ last.timestamp := by
    rw [List.pairwise_append] at hmono
    intro r hr
    exact ne_of_lt (hmono.2.2 r hr last (by simp))
  have htake : (rs ++ [last]).take n = rs.take n := List.take_append_of_le_length hn
  rw [htake]
  exact runStates_balance_of_ne last.timestamp (rs.take n) ⟨init, 0, 0⟩
    (fun r hr => hts r (List.take_subset n rs hr))

/-- C3: the backtest returns the initial balance unchanged both on an
empty series (the loop never runs) and whenever the initial balance is
below 1000 (the balance floor fires before any bar is processed). -/
theorem simulate_empty_or_low :
    (∀ init : ℚ, simulate_trading [] init = init)
    ∧ (∀ (rows : List Row) (init : ℚ), init < 1000 → simulate_trading rows init = init) := by
  constructor
  · intro init; rfl
  · intro rows init h
    cases hL : rows.getLast? with
    | none => simp [simulate_trading, hL]
    | some last =>
        simp only [simulate_trading, hL]
        rw [runStates_low last.timestamp ⟨init, 0, 0⟩ rows h]

/-- C10: the close-out step is keyed on timestamp equality with the
last row, not on position in the series: it fires (realizing P&L and
resetting the side) at any bar carrying the final timestamp, it cannot
fire at a bar whose timestamp differs from the final one — which under
strictly increasing timestamps is every non-final bar — and on a series
whose middle bar duplicates the final timestamp the long position is
closed at the middle bar's price. -/
theorem close_out_keyed_by_timestamp :
    (∀ (lastTs : ℕ) (st : SimState) (r : Row), r.timestamp = lastTs → st.position ≠ 0 →
        (stepClose lastTs st r).position = 0
        ∧ (stepClose lastTs st r).balance = st.balance + settle st r)
    ∧ (∀ (rs : List Row) (last : Row) (st : SimState) (r : Row),
        List.Pairwise (fun a b => a.timestamp < b.timestamp) (rs ++ [last]) → r ∈ rs →
        stepClose last.timestamp st r = st)
    ∧ simulate_trading [⟨1, 100, 1⟩, ⟨2, 110, 0⟩, ⟨2, 90, 0⟩] 10000 = 10010 := by
  refine ⟨?_, ?_, by norm_num [simulate_trading, runStates, stepBar, stepEntry, stepClose]⟩
  · intro lastTs st r hts hp
    have hcl : stepClose lastTs st r
        = { balance :=
              if st.position = 1 then st.balance + (r.close - st.entry_price)
              else if st.position = -1 then st.balance + (st.entry_price - r.close)
              else st.balance
            position := 0
            entry_price := st.entry_price } := by
      unfold stepClose
      rw [if_pos ⟨hts, hp⟩]
    rw [hcl]
    refine ⟨rfl, ?_⟩
    simp only [settle]
    split_ifs <;> ring
  · intro rs last st r hmono hr
    rw [List.pairwise_append] at hmono
    exact stepClose_of_ne _ _ _ (ne_of_lt (hmono.2.2 r hr last (by simp)))

/-- C4 evidence: `calculate_cagr` raises nothing on a negative final
balance with fractional annualization — it silently returns the
complex number `(-1/2) ** (1/2)` — while the valid call
`calculate_cagr(10000, 20000, 1.0)` returns 1. -/
theorem cagr_complex_silent :
    calculate_cagr 10000 (-5000) 2 = Except.ok (CagrResult.complexPow (-(1/2)) (1/2))
    ∧ calculate_cagr 10000 20000 1 = Except.ok (CagrResult.real 1) := by
  constructor <;> norm_num [calculate_cagr]

/-- C5 evidence: `calculate_cagr` performs no input validation: a
negative `years` is accepted silently (returning `2 ** (-1) - 1 =
-1/2`) and a negative `initial_balance` is accepted silently
(returning 1), with no error of any kind. -/
theorem cagr_no_input_validation :
    calculate_cagr 10000 20000 (-1) = Except.ok (CagrResult.real (-(1/2)))
    ∧ calculate_cagr (-10000) (-20000) 1 = Except.ok (CagrResult.real 1) := by
  constructor <;> norm_num [calculate_cagr]

/-! ## Indicator engine lemmas -/

theorem rollingAux_eq (w : ℕ) (xs : List (Option ℚ)) :
    ∀ buf : List (Option ℚ),
      rollingAux w buf xs = (List.range xs.length).map (fun i =>
        if w ≤ buf.length + i + 1
            ∧ ((buf ++ xs.take (i + 1)).drop (buf.length + i + 1 - w)).all (fun v => v.isSome)
        then
          some ((((buf ++ xs.take (i + 1)).drop (buf.length + i + 1 - w)).filterMap id).sum
            / (w : ℚ))
        else none) := by
  induction xs with
  | nil => intro buf; rfl
  | cons x rest ih =>
      intro buf
      rw [rollingAux, ih (buf ++ [x])]
      rw [List.length_cons, List.range_succ_eq_map, List.map_cons, List.map_map]
      congr 1
      · simp
      · refine List.map_congr_left fun i _ => ?_
        simp only [Function.comp_apply, Nat.succ_eq_add_one]
        have h1 : (buf ++ [x]).length + i + 1 = buf.length + (i + 1) + 1 := by
          simp only [List.length_append, List.length_cons, List.length_nil]
          omega
        have h2 : (buf ++ [x]) ++ rest.take (i + 1) = buf ++ (x :: rest).take (i + 1 + 1) := by
          simp [List.take_succ_cons]
        rw [h1, h2]

theorem calculate_sma_eq (col : List (Option ℚ)) (w : ℕ) :
    calculate_sma col w = (List.range col.length).map (fun i =>
      if w ≤ i + 1 ∧ ((col.take (i + 1)).drop (i + 1 - w)).all (fun v => v.isSome) then
        some ((((col.take (i + 1)).drop (i + 1 - w)).filterMap id).sum / (w : ℚ))
      else none) := by
  rw [calculate_sma, rollingAux_eq w col []]
  simp

theorem getElem?_range_map (n : ℕ) (f : ℕ → Option ℚ) (i : ℕ) (hi : i < n) :
    ((List.range n).map f)[i]? = some (f i) := by
  simp [List.getElem?_map, List.getElem?_range, hi]

/-- C6: for a window of at least 1 over a numeric column, the SMA has
exactly the first `w-1` positions undefined and every later position
`i` equal to the arithmetic mean of the `w` values ending at `i`
inclusive; closes 1..5 with window 3 give undefined, undefined,
2, 3, 4. -/
theorem sma_leading_undefined_then_mean (xs : List ℚ) (w : ℕ) (hw : 1 ≤ w) :
    ((calculate_sma (xs.map some) w).length = xs.length)
    ∧ (∀ i, i < xs.length → i + 1 < w → (calculate_sma (xs.map some) w)[i]? = some none)
    ∧ (∀ i, i < xs.length → w ≤ i + 1 →
        (calculate_sma (xs.map some) w)[i]?
          = some (some (((xs.drop (i + 1 - w)).take w).sum / (w : ℚ))))
    ∧ calculate_sma (([1, 2, 3, 4, 5] : List ℚ).map some) 3
        = [none, none, some 2, some 3, some 4] := by
  refine ⟨?_, ?_, ?_, ?_⟩
  · rw [calculate_sma_eq]
    simp
  · intro i hi hiw
    rw [calculate_sma_eq, getElem?_range_map _ _ i (by simpa using hi)]
    rw [if_neg]
    exact fun hcon => absurd hcon.1 (by omega)
  · intro i hi hiw
    rw [calculate_sma_eq, getElem?_range_map _ _ i (by simpa using hi)]
    have hslice : ((xs.map some).take (i + 1)).drop (i + 1 - w)
        = ((xs.take (i + 1)).drop (i + 1 - w)).map some := by
      rw [← List.map_take, ← List.map_drop]
    rw [hslice]
    have hall : ((((xs.take (i + 1)).drop (i + 1 - w)).map some).all
        (fun v => v.isSome)) = true := by
      rw [List.all_eq_true]
      intro x hx
      rcases List.mem_map.1 hx with ⟨a, _, rfl⟩
      rfl
    rw [if_pos ⟨hiw, hall⟩]
    have hfm : (((xs.take (i + 1)).drop (i + 1 - w)).map some).filterMap id
        = (xs.take (i + 1)).drop (i + 1 - w) := by
      rw [List.filterMap_map]
      simp [Function.comp]
    rw [hfm]
    have hst : (xs.take (i + 1)).drop (i + 1 - w) = (xs.drop (i + 1 - w)).take w := by
      rw [List.drop_take]
      congr 1
      omega
    rw [hst]
  · norm_num [calculate_sma, rollingAux, List.filterMap_cons]

/-! ## Signal generator lemmas -/

theorem sigOf_some_some (x y : ℚ) :
    sigOf (some x) (some y) = if y < x then 1 else if x < y then -1 else 0 := by
  simp [sigOf, optGt]

/-- C7: the signal of a bar is Buy (1) exactly when both SMAs are
defined and SMA10 exceeds SMA20, Sell (-1) exactly when both are
defined and SMA20 exceeds SMA10, and Flat (0) whenever either SMA is
undefined or the two are equal; the signal at position `i` is a
function of the two SMA entries at `i` alone, with no memory of prior
bars. -/
theorem signal_pointwise_rule :
    (∀ a b : Option ℚ, (sigOf a b = 1 ↔ ∃ x y : ℚ, a = some x ∧ b = some y ∧ y < x))
    ∧ (∀ a b : Option ℚ, (sigOf a b = -1 ↔ ∃ x y : ℚ, a = some x ∧ b = some y ∧ x < y))
    ∧ (∀ a b : Option ℚ, a = none ∨ b = none ∨ a = b → sigOf a b = 0)
    ∧ (∀ (s10 s20 : List (Option ℚ)) (i : ℕ),
        (generate_signals s10 s20)[i]?
          = match s10[i]?, s20[i]? with
            | some a, some b => some (sigOf a b)
            | _, _ => none) := by
  refine ⟨?_, ?_, ?_, ?_⟩
  · intro a b
    rcases a with _ | x <;> rcases b with _ | y
    · simp [sigOf, optGt]
    · simp [sigOf, optGt]
    · simp [sigOf, optGt]
    · rw [sigOf_some_some]
      simp only [Option.some.injEq]
      constructor
      · intro heq
        refine ⟨x, y, rfl, rfl, ?_⟩
        split_ifs at heq with h1 h2
        · exact h1
        · exact absurd heq (by decide)
      · rintro ⟨x', y', rfl, rfl, hlt⟩
        rw [if_pos hlt]
  · intro a b
    rcases a with _ | x <;> rcases b with _ | y
    · simp [sigOf, optGt]
    · simp [sigOf, optGt]
    · simp [sigOf, optGt]
    · rw [sigOf_some_some]
      simp only [Option.some.injEq]
      constructor
      · intro heq
        refine ⟨x, y, rfl, rfl, ?_⟩
        split_ifs at heq with h1 h2
        · exact h2
      · rintro ⟨x', y', rfl, rfl, hlt⟩
        rw [if_neg (lt_asymm hlt), if_pos hlt]
  · intro a b h
    rcases h with h | h | h
    · subst h
      rcases b with _ | y <;> rfl
    · subst h
      rcases a with _ | x <;> rfl
    · subst h
      rcases a with _ | x
      · rfl
      · rw [sigOf_some_some, if_neg (lt_irrefl x), if_neg (lt_irrefl x)]
  · intro s10 s20 i
    rw [generate_signals]
    cases h1 : s10[i]? <;> cases h2 : s20[i]? <;>
      simp [List.getElem?_zipWith, h1, h2]

/-! ## Quality gate lemmas -/

theorem dupAux_eq_zero (l : List (Option ℕ)) :
    ∀ seen, dupAux seen l = 0 → l.Nodup ∧ ∀ x ∈ l, x ∉ seen := by
  induction l with
  | nil =>
      intro seen _
      exact ⟨List.nodup_nil, by simp⟩
  | cons t rest ih =>
      intro seen h
      rw [dupAux] at h
      have hts : t ∉ seen := by
        by_contra hmem
        rw [if_pos hmem] at h
        omega
      rw [if_neg hts] at h
      have h0 : dupAux (t :: seen) rest = 0 := by omega
      obtain ⟨hnd, hfresh⟩ := ih (t :: seen) h0
      refine ⟨List.nodup_cons.mpr ⟨?_, hnd⟩, ?_⟩
      · intro hmem
        exact hfresh t hmem (List.mem_cons_self t seen)
      · intro x hx
        rcases List.mem_cons.1 hx with rfl | hx'
        · exact hts
        · intro hxs
          exact hfresh x hx' (List.mem_cons_of_mem _ hxs)

theorem duplicatedCount_pos (df : List QRow)
    (h : ¬ (df.map (fun r => r.timestamp)).Nodup) : 0 < duplicatedCount df := by
  rw [duplicatedCount]
  by_contra h0
  exact h (dupAux_eq_zero (df.map (fun r => r.timestamp)) [] (by omega)).1

/-- C8: the quality gate is a total function: on the empty series every
count is zero and no issue is reported; on any series whose timestamp
column contains a duplicate it reports a duplicate count of at least 1
and the duplicate-timestamp issue string while `total_rows` still
counts every row; and each of the three issue strings is present
exactly when its own check fires, independently of the other two. -/
theorem quality_gate_behavior :
    (verify_data_quality [] = (⟨0, ⟨0, 0, 0, 0, 0, 0⟩, 0, []⟩ : QualityMetrics))
    ∧ (∀ df : List QRow, ¬ (df.map (fun r => r.timestamp)).Nodup →
        1 ≤ (verify_data_quality df).duplicate_timestamps
        ∧ "Data contains duplicate timestamps." ∈ (verify_data_quality df).issues
        ∧ (verify_data_quality df).total_rows = df.length)
    ∧ (∀ df : List QRow,
        (("Data contains missing values." ∈ (verify_data_quality df).issues)
            ↔ hasMissing df = true)
        ∧ (("Data contains duplicate timestamps." ∈ (verify_data_quality df).issues)
            ↔ 0 < duplicatedCount df)
        ∧ (("Data contains non-positive values in numeric columns."
              ∈ (verify_data_quality df).issues) ↔ hasNonPositive df = true)) := by
  have hmem : ∀ (df : List QRow) (s : String),
      s ∈ (verify_data_quality df).issues ↔
        (hasMissing df = true ∧ s = "Data contains missing values.")
        ∨ (0 < duplicatedCount df ∧ s = "Data contains duplicate timestamps.")
        ∨ (hasNonPositive df = true
            ∧ s = "Data contains non-positive values in numeric columns.") := by
    intro df s
    simp only [verify_data_quality, List.mem_append]
    split_ifs with h1 h2 h3 <;> simp_all [or_assoc]
  have hs12 : ("Data contains missing values." : String)
      ≠ "Data contains duplicate timestamps." := by decide
  have hs13 : ("Data contains missing values." : String)
      ≠ "Data contains non-positive values in numeric columns." := by decide
  have hs23 : ("Data contains duplicate timestamps." : String)
      ≠ "Data contains non-positive values in numeric columns." := by decide
  refine ⟨rfl, ?_, ?_⟩
  · intro df h
    have hd := duplicatedCount_pos df h
    refine ⟨hd, ?_, rfl⟩
    rw [hmem]
    exact Or.inr (Or.inl ⟨hd, rfl⟩)
  · intro df
    refine ⟨?_, ?_, ?_⟩
    · rw [hmem]
      simp [hs12, hs13]
    · rw [hmem]
      simp [hs12.symm, hs23]
    · rw [hmem]
      simp [hs13.symm, hs23.symm]

/-! ## Pipeline object-identity lemmas -/

theorem mainPipeline_addr (raw : List QRow) :
    (mainPipeline raw).finalAddr = (mainPipeline raw).gateAddr := rfl

theorem mainPipeline_gateView (raw : List QRow) :
    (mainPipeline raw).gateView
      = { rows := raw, sma10 := none, sma20 := none, signal := none } := rfl

theorem mainPipeline_finalLookup (raw : List QRow) :
    hLookup (mainPipeline raw).finalHeap (mainPipeline raw).gateAddr
      = some (applySignals (applySMA20 (applySMA10
          { rows := raw, sma10 := none, sma20 := none, signal := none }))) := rfl

theorem mainPipeline_report (raw : List QRow) :
    (mainPipeline raw).report = verify_data_quality raw := rfl

/-- C9 counterexample: running the pipeline of `main` on a one-row
frame, the object returned by signal generation is the very object the
quality gate assessed (same address), and its value afterwards differs
from the value the gate saw — the in-place column writes are visible
through the gate's reference. -/
theorem gate_object_mutated :
    (mainPipeline [⟨some 0, some 1, some 1, some 1, some 1, some 1⟩]).finalAddr
        = (mainPipeline [⟨some 0, some 1, some 1, some 1, some 1, some 1⟩]).gateAddr
    ∧ hLookup (mainPipeline [⟨some 0, some 1, some 1, some 1, some 1, some 1⟩]).finalHeap
          (mainPipeline [⟨some 0, some 1, some 1, some 1, some 1, some 1⟩]).gateAddr
        ≠ some (mainPipeline [⟨some 0, some 1, some 1, some 1, some 1, some 1⟩]).gateView := by
  refine ⟨rfl, ?_⟩
  rw [mainPipeline_finalLookup, mainPipeline_gateView]
  intro h
  have h2 := congrArg DF.signal (Option.some.inj h)
  simp [applySignals] at h2

/-- C9 amended: the derived-column stages mutate the single pipeline
DataFrame in place — `generate_signals` returns the very object the
quality gate assessed — so after signal generation that object carries
the two SMA columns and the signal column; its OHLCV rows are
unchanged, and the quality report reflects the value the gate read
before the mutations. -/
theorem gate_object_mutation_characterized (raw : List QRow) :
    (mainPipeline raw).finalAddr = (mainPipeline raw).gateAddr
    ∧ hLookup (mainPipeline raw).finalHeap (mainPipeline raw).gateAddr
        = some { rows := raw,
                 sma10 := some (calculate_sma (raw.map (fun r => r.close)) 10),
                 sma20 := some (calculate_sma (raw.map (fun r => r.close)) 20),
                 signal := some (generate_signals
                    (calculate_sma (raw.map (fun r => r.close)) 10)
                    (calculate_sma (raw.map (fun r => r.close)) 20)) }
    ∧ (mainPipeline raw).gateView.signal = none
    ∧ (mainPipeline raw).report = verify_data_quality ((mainPipeline raw).gateView.rows) := by
  exact ⟨rfl, rfl, rfl, rfl⟩

/-! ## Witness instances -/

/-- Witness for C1 at the spec's scenario with initial balance 10000. -/
theorem simulate_final_bar_settlement_witness :
    (simulate_trading (([⟨0, 100, 1⟩, ⟨1, 110, 0⟩] : List Row) ++ ([⟨2, 90, 0⟩] : List Row)) 10000
        = 10000 + settle ((([⟨0, 100, 1⟩, ⟨1, 110, 0⟩] : List Row) ++ ([⟨2, 90, 0⟩] : List Row)).foldl
            stepEntry ⟨10000, 0, 0⟩) ⟨2, 90, 0⟩
      ∧ (runStates 2 ⟨10000, 0, 0⟩
          (([⟨0, 100, 1⟩, ⟨1, 110, 0⟩] : List Row) ++ ([⟨2, 90, 0⟩] : List Row))).position = 0)
    ∧ simulate_trading [⟨0, 100, 1⟩, ⟨1, 110, 0⟩, ⟨2, 90, 0⟩] 10000 = 10000 - 10 :=
  simulate_final_bar_settlement [⟨0, 100, 1⟩, ⟨1, 110, 0⟩] ⟨2, 90, 0⟩ 10000
    (by decide) (by norm_num)

/-- Witness for C2: a non-final bar leaves the balance unchanged, and
the balance after a proper prefix equals the initial balance. -/
theorem balance_constant_before_close_witness :
    (stepBar 5 ⟨2000, 1, 100⟩ ⟨3, 130, 0⟩).balance = (⟨2000, 1, 100⟩ : SimState).balance
    ∧ (runStates 2 ⟨777, 0, 0⟩
        ((([⟨0, 100, 1⟩] : List Row) ++ ([⟨2, 90, 0⟩] : List Row)).take 1)).balance = 777 :=
  ⟨balance_constant_before_close.2.1 5 (⟨2000, 1, 100⟩ : SimState) (⟨3, 130, 0⟩ : Row)
     (by decide),
   balance_constant_before_close.2.2 ([⟨0, 100, 1⟩] : List Row) (⟨2, 90, 0⟩ : Row) 777 1
     (by decide) (by decide)⟩

/-- Witness for C3 on the empty series and on a low initial balance. -/
theorem simulate_empty_or_low_witness :
    simulate_trading [] 777 = 777 ∧ simulate_trading [⟨0, 100, 1⟩] 500 = 500 :=
  ⟨simulate_empty_or_low.1 777,
   simulate_empty_or_low.2 [⟨0, 100, 1⟩] 500 (by norm_num)⟩

/-- Witness for C6 on closes 1..5 with window 3. -/
theorem sma_leading_undefined_then_mean_witness :
    (calculate_sma (([1, 2, 3, 4, 5] : List ℚ).map some) 3)[1]? = some none
    ∧ (calculate_sma (([1, 2, 3, 4, 5] : List ℚ).map some) 3)[4]?
        = some (some (((([1, 2, 3, 4, 5] : List ℚ).drop 2).take 3).sum / (3 : ℚ)))
    ∧ calculate_sma (([1, 2, 3, 4, 5] : List ℚ).map some) 3
        = [none, none, some 2, some 3, some 4] :=
  ⟨(sma_leading_undefined_then_mean [1, 2, 3, 4, 5] 3 (by decide)).2.1 1
      (by decide) (by decide),
   (sma_leading_undefined_then_mean [1, 2, 3, 4, 5] 3 (by decide)).2.2.1 4
      (by decide) (by decide),
   (sma_leading_undefined_then_mean [1, 2, 3, 4, 5] 3 (by decide)).2.2.2⟩

/-- Witness for C7: an undefined SMA entry yields the Flat signal. -/
theorem signal_pointwise_rule_witness :
    sigOf none (some 5) = 0 :=
  signal_pointwise_rule.2.2.1 none (some 5) (Or.inl rfl)

/-- Witness for C8 on a two-row series with a duplicated timestamp. -/
theorem quality_gate_behavior_witness :
    1 ≤ (verify_data_quality [⟨some 7, some 1, some 1, some 1, some 1, some 1⟩,
          ⟨some 7, some 2, some 2, some 2, some 2, some 2⟩]).duplicate_timestamps
    ∧ "Data contains duplicate timestamps."
        ∈ (verify_data_quality [⟨some 7, some 1, some 1, some 1, some 1, some 1⟩,
            ⟨some 7, some 2, some 2, some 2, some 2, some 2⟩]).issues
    ∧ (verify_data_quality [⟨some 7, some 1, some 1, some 1, some 1, some 1⟩,
          ⟨some 7, some 2, some 2, some 2, some 2, some 2⟩]).total_rows = 2 :=
  quality_gate_behavior.2.1
    [⟨some 7, some 1, some 1, some 1, some 1, some 1⟩,
     ⟨some 7, some 2, some 2, some 2, some 2, some 2⟩] (by decide)

/-- Witness for C10: the close-out step fires at a bar whose timestamp
equals the last row's timestamp, crediting the settled P&L. -/
theorem close_out_keyed_by_timestamp_witness :
    (stepClose 5 ⟨2000, 1, 100⟩ ⟨5, 130, 0⟩).position = 0
    ∧ (stepClose 5 ⟨2000, 1, 100⟩ ⟨5, 130, 0⟩).balance
        = (⟨2000, 1, 100⟩ : SimState).balance + settle ⟨2000, 1, 100⟩ ⟨5, 130, 0⟩ :=
  close_out_keyed_by_timestamp.1 5 (⟨2000, 1, 100⟩ : SimState) (⟨5, 130, 0⟩ : Row)
    rfl (by decide)

end HillRoute
